import Mathlib

/-!
Verification of the access-control and progress/quiz state machine of
`bot.py` (Tritika e-learning bot).  The Python source is shallowly
embedded: the mutable `AccessManager` object and the module-level
dictionaries (`user_progress`, aiogram FSM data) become explicit state
values threaded through pure Lean functions; `datetime.now()` becomes an
explicit `now : String` parameter; the JSON persistence file becomes a
`Json` value.  Python `dict`s that the code iterates or persists are
modelled as insertion-ordered association lists (Python 3.7+ dicts keep
insertion order); the per-user progress dictionary, whose ordering is
never observed, is modelled as a function `Nat → Option UserProgress`.
-/

namespace TritikaBot

/-- One value of the `paid_users` dict: the record built in
`AccessManager.grant_access_by_id`.  `granted_date` / `payment_date` are
ISO timestamp strings in the source; `granted_by` is the admin id,
`price` is `ACCESS_CONFIG["price_per_course"]`. -/
structure PaidRecord where
  granted_date : String
  granted_by : Nat
  username : String
  access_type : String
  payment_date : String
  price : Nat
deriving DecidableEq, Repr

/-- Key encoding `str(user_id)`: the source keys `paid_users` by the stringified id. -/
def strKey (uid : Nat) : String := toString uid

/-- Python `key in dict`. -/
def dictMem (k : String) (d : List (String × PaidRecord)) : Bool :=
  (d.lookup k).isSome

/-- Python `del dict[key]` (removes every binding of the key; on the
unique-key dicts the source builds this is exactly `del`). -/
def delKey (k : String) (d : List (String × PaidRecord)) : List (String × PaidRecord) :=
  d.filter (fun kv => kv.1 ≠ k)

/-- The in-memory state of `AccessManager`: the configured admin ids
(`ACCESS_CONFIG["admin_ids"]`, parsed once from the `ADMIN_IDS`
environment variable) and the `paid_users` dict. -/
structure AccessManager where
  admin_ids : List Nat
  paid_users : List (String × PaidRecord)
deriving DecidableEq, Repr

/-- Source method `AccessManager.is_admin`. -/
def is_admin (m : AccessManager) (uid : Nat) : Bool :=
  m.admin_ids.contains uid

/-- Result triple of `AccessManager.has_access`:
`(has_access, access_type, expiry_date)`; the source always returns
`None` for the expiry. -/
structure AccessResult where
  ok : Bool
  access_type : String
  expiry_date : Option String
deriving DecidableEq, Repr

/-- Source method `AccessManager.has_access`: admin first, then the paid dict. -/
def has_access (m : AccessManager) (uid : Nat) : AccessResult :=
  if is_admin m uid then ⟨true, "admin", none⟩
  else if dictMem (strKey uid) m.paid_users then ⟨true, "paid", none⟩
  else ⟨false, "none", none⟩

/-- The record inserted by `grant_access_by_id` (both timestamp fields
are `datetime.now().isoformat()`, i.e. the same `now`). -/
def mkPaidRecord (admin_id : Nat) (username : String) (now : String) : PaidRecord :=
  { granted_date := now
    granted_by := admin_id
    username := username
    access_type := "permanent"
    payment_date := now
    price := 2990 }

/-- Source method `AccessManager.grant_access_by_id`: no-op returning `False` when the
key is already present, otherwise inserts the record and returns `True`
(the synchronous `save_data` call is modelled separately, below). -/
def grant_access_by_id (m : AccessManager) (uid admin_id : Nat)
    (username now : String) : Bool × AccessManager :=
  if dictMem (strKey uid) m.paid_users then (false, m)
  else (true, { m with
    paid_users := m.paid_users ++ [(strKey uid, mkPaidRecord admin_id username now)] })

/-- Source method `AccessManager.revoke_access`: deletes the key and returns `True`
when present, otherwise returns `False` leaving the state untouched. -/
def revoke_access (m : AccessManager) (uid : Nat) : Bool × AccessManager :=
  if dictMem (strKey uid) m.paid_users then
    (true, { m with paid_users := delKey (strKey uid) m.paid_users })
  else (false, m)

/- Basic dictionary lemmas. -/

theorem lookup_append_self (d : List (String × PaidRecord)) (k : String) (v : PaidRecord) :
    (d ++ [(k, v)]).lookup k = ((d.lookup k).orElse (fun _ => some v)) := by
  induction d with
  | nil => simp [List.lookup]
  | cons hd tl ih =>
    by_cases h : k = hd.1
    · simp [List.lookup, h]
    · simp only [List.cons_append, List.lookup]
      have : (k == hd.1) = false := by
        simp [h]
      simp [this, ih]

theorem dictMem_append_self (d : List (String × PaidRecord)) (k : String) (v : PaidRecord) :
    dictMem k (d ++ [(k, v)]) = true := by
  unfold dictMem
  rw [lookup_append_self]
  cases h : d.lookup k <;> simp [Option.orElse]

theorem lookup_delKey (d : List (String × PaidRecord)) (k : String) :
    (delKey k d).lookup k = none := by
  induction d with
  | nil => simp [delKey, List.lookup]
  | cons hd tl ih =>
    unfold delKey at ih ⊢
    by_cases h : hd.1 = k
    · simp only [List.filter_cons]
      have : (decide (hd.1 ≠ k)) = false := by simp [h]
      rw [this]
      exact ih
    · simp only [List.filter_cons]
      have : (decide (hd.1 ≠ k)) = true := by simpa using h
      rw [this]
      have hbe : (k == hd.1) = false := by
        simp only [beq_eq_false_iff_ne, ne_eq]
        exact fun hh => h hh.symm
      simp only [List.lookup, hbe]
      exact ih

theorem dictMem_delKey (d : List (String × PaidRecord)) (k : String) :
    dictMem k (delKey k d) = false := by
  simp [dictMem, lookup_delKey]

/-- A mutation of the access store: the two operations that write the
`paid_users` dict (`grant_access_by_id` / `revoke_access`). -/
inductive StoreOp where
  | grantOp (uid admin_id : Nat) (username now : String)
  | revokeOp (uid : Nat)
deriving DecidableEq, Repr

/-- State effect of one store mutation. -/
def applyOp (m : AccessManager) : StoreOp → AccessManager
  | .grantOp uid aid un now => (grant_access_by_id m uid aid un now).2
  | .revokeOp uid => (revoke_access m uid).2

/-- State effect of a sequence of store mutations. -/
def applyOps (m : AccessManager) (ops : List StoreOp) : AccessManager :=
  ops.foldl applyOp m

theorem applyOp_admin_ids (m : AccessManager) (op : StoreOp) :
    (applyOp m op).admin_ids = m.admin_ids := by
  cases op with
  | grantOp uid aid un now =>
    unfold applyOp grant_access_by_id
    by_cases h : dictMem (strKey uid) m.paid_users <;> simp [h]
  | revokeOp uid =>
    unfold applyOp revoke_access
    by_cases h : dictMem (strKey uid) m.paid_users <;> simp [h]

theorem applyOps_admin_ids (ops : List StoreOp) (m : AccessManager) :
    (applyOps m ops).admin_ids = m.admin_ids := by
  induction ops generalizing m with
  | nil => rfl
  | cons op rest ih =>
    unfold applyOps
    simp only [List.foldl_cons]
    rw [show List.foldl applyOp (applyOp m op) rest = applyOps (applyOp m op) rest from rfl]
    rw [ih (applyOp m op), applyOp_admin_ids]

/-- C2: `grant_access_by_id` is idempotent — when the user id is already
a key of `paid_users`, a further grant returns `False` and leaves the
entire store (hence the granted set's size and entries) unchanged. -/
theorem c2_grant_idempotent (m : AccessManager) (uid admin_id : Nat)
    (username now : String)
    (h : dictMem (strKey uid) m.paid_users = true) :
    grant_access_by_id m uid admin_id username now = (false, m) := by
  unfold grant_access_by_id
  simp [h]

/-- Witness for C2: user 42 is already granted, so the grant is a no-op. -/
theorem c2_grant_idempotent_witness :
    dictMem (strKey 42)
      (AccessManager.mk [1] [(strKey 42, mkPaidRecord 1 "alice" "t0")]).paid_users = true ∧
    grant_access_by_id (AccessManager.mk [1] [(strKey 42, mkPaidRecord 1 "alice" "t0")])
        42 1 "alice" "t1" =
      (false, AccessManager.mk [1] [(strKey 42, mkPaidRecord 1 "alice" "t0")]) :=
  ⟨by decide, c2_grant_idempotent _ 42 1 "alice" "t1" (by decide)⟩

/-- C1 counterexample: the claim quantifies over every `user_id`, but for
a user id that is itself in the configured admin set the claim fails —
with `admin_ids = [1]` and an empty paid dict, `grant(1, 1, "alice")`
succeeds, a subsequent `revoke(1)` succeeds, yet `has_access(1)` is still
`True` afterwards (the admin branch), contradicting the claimed
`hasAccess(user_id) = false` immediately after the revoke. -/
theorem c1_counterexample :
    (grant_access_by_id (AccessManager.mk [1] []) 1 1 "alice" "t0").1 = true ∧
    (revoke_access (grant_access_by_id (AccessManager.mk [1] []) 1 1 "alice" "t0").2 1).1
      = true ∧
    ¬ ((has_access
        (revoke_access (grant_access_by_id (AccessManager.mk [1] []) 1 1 "alice" "t0").2 1).2
        1).ok = false) := by
  refine ⟨by decide, by decide, ?_⟩
  decide

/-- C1 (amended to user ids outside the configured admin set): after a
successful `grant`, `has_access` is true; after a subsequent `revoke`
(which succeeds), `has_access` is false; and a second `revoke` of the now
absent user returns `False` as a no-op leaving the store unchanged. -/
theorem c1_access_lifecycle (m : AccessManager) (uid admin_id : Nat)
    (username now : String)
    (hadm : is_admin m uid = false)
    (hnew : dictMem (strKey uid) m.paid_users = false) :
    (grant_access_by_id m uid admin_id username now).1 = true ∧
    (has_access (grant_access_by_id m uid admin_id username now).2 uid).ok = true ∧
    (revoke_access (grant_access_by_id m uid admin_id username now).2 uid).1 = true ∧
    (has_access
      (revoke_access (grant_access_by_id m uid admin_id username now).2 uid).2 uid).ok
      = false ∧
    revoke_access
        (revoke_access (grant_access_by_id m uid admin_id username now).2 uid).2 uid =
      (false,
        (revoke_access (grant_access_by_id m uid admin_id username now).2 uid).2) := by
  have hg : grant_access_by_id m uid admin_id username now =
      (true, { m with paid_users :=
        m.paid_users ++ [(strKey uid, mkPaidRecord admin_id username now)] }) := by
    unfold grant_access_by_id
    simp [hnew]
  have hmem : dictMem (strKey uid)
      (m.paid_users ++ [(strKey uid, mkPaidRecord admin_id username now)]) = true :=
    dictMem_append_self _ _ _
  have hadm1 : is_admin
      { m with paid_users :=
        m.paid_users ++ [(strKey uid, mkPaidRecord admin_id username now)] } uid
      = false := hadm
  have hrev1 : revoke_access
      { m with paid_users :=
        m.paid_users ++ [(strKey uid, mkPaidRecord admin_id username now)] } uid =
      (true, { m with paid_users := (delKey (strKey uid)
        (m.paid_users ++ [(strKey uid, mkPaidRecord admin_id username now)])) }) := by
    unfold revoke_access
    simp [hmem]
  have hadm2 : is_admin
      { m with paid_users := (delKey (strKey uid)
        (m.paid_users ++ [(strKey uid, mkPaidRecord admin_id username now)])) } uid
      = false := hadm
  have hrev2 : revoke_access
      { m with paid_users := (delKey (strKey uid)
        (m.paid_users ++ [(strKey uid, mkPaidRecord admin_id username now)])) } uid =
      (false, { m with paid_users := (delKey (strKey uid)
        (m.paid_users ++ [(strKey uid, mkPaidRecord admin_id username now)])) }) := by
    unfold revoke_access
    simp [dictMem_delKey]
  refine ⟨by rw [hg], ?_, ?_, ?_, ?_⟩
  · rw [hg]
    unfold has_access
    simp [hadm1, hmem]
  · rw [hg, hrev1]
  · rw [hg, hrev1]
    unfold has_access
    simp [hadm2, dictMem_delKey]
  · rw [hg, hrev1, hrev2]

/-- Witness for C1 (amended): admin set `[1]`, fresh user 42. -/
theorem c1_access_lifecycle_witness :
    is_admin (AccessManager.mk [1] []) 42 = false ∧
    dictMem (strKey 42) (AccessManager.mk [1] []).paid_users = false ∧
    ((grant_access_by_id (AccessManager.mk [1] []) 42 1 "alice" "t0").1 = true ∧
     (has_access (grant_access_by_id (AccessManager.mk [1] []) 42 1 "alice" "t0").2 42).ok
       = true ∧
     (revoke_access (grant_access_by_id (AccessManager.mk [1] []) 42 1 "alice" "t0").2 42).1
       = true ∧
     (has_access
       (revoke_access
         (grant_access_by_id (AccessManager.mk [1] []) 42 1 "alice" "t0").2 42).2 42).ok
       = false ∧
     revoke_access
         (revoke_access
           (grant_access_by_id (AccessManager.mk [1] []) 42 1 "alice" "t0").2 42).2 42 =
       (false,
         (revoke_access
           (grant_access_by_id (AccessManager.mk [1] []) 42 1 "alice" "t0").2 42).2)) :=
  ⟨by decide, by decide,
    c1_access_lifecycle (AccessManager.mk [1] []) 42 1 "alice" "t0" (by decide) (by decide)⟩

/-- C6: the configured admin set is never mutated at runtime, so when it
contains exactly one identifier, any `revoke_access` call leaves it
unchanged and non-empty, the sole admin keeps admin status and access,
and a revoke aimed at the sole admin who holds no separate paid entry is
refused with `False`. -/
theorem c6_last_admin_preserved (m : AccessManager) (a uid : Nat)
    (hone : m.admin_ids = [a]) :
    ((revoke_access m uid).2).admin_ids = [a] ∧
    ((revoke_access m uid).2).admin_ids ≠ [] ∧
    is_admin (revoke_access m uid).2 a = true ∧
    (has_access (revoke_access m uid).2 a).ok = true ∧
    (dictMem (strKey a) m.paid_users = false → (revoke_access m a).1 = false) := by
  have hids : ((revoke_access m uid).2).admin_ids = m.admin_ids := by
    unfold revoke_access
    by_cases h : dictMem (strKey uid) m.paid_users <;> simp [h]
  have hia : is_admin (revoke_access m uid).2 a = true := by
    unfold is_admin
    rw [hids, hone]
    simp
  refine ⟨by rw [hids, hone], by rw [hids, hone]; simp, hia, ?_, ?_⟩
  · unfold has_access
    simp [hia]
  · intro habs
    unfold revoke_access
    simp [habs]

/-- Witness for C6: a single admin `1` with one granted user `42`. -/
theorem c6_last_admin_preserved_witness :
    (AccessManager.mk [1] [(strKey 42, mkPaidRecord 1 "alice" "t0")]).admin_ids = [1] ∧
    (((revoke_access (AccessManager.mk [1] [(strKey 42, mkPaidRecord 1 "alice" "t0")]) 1).2).admin_ids = [1] ∧
     ((revoke_access (AccessManager.mk [1] [(strKey 42, mkPaidRecord 1 "alice" "t0")]) 1).2).admin_ids ≠ [] ∧
     is_admin (revoke_access (AccessManager.mk [1] [(strKey 42, mkPaidRecord 1 "alice" "t0")]) 1).2 1 = true ∧
     (has_access (revoke_access (AccessManager.mk [1] [(strKey 42, mkPaidRecord 1 "alice" "t0")]) 1).2 1).ok = true ∧
     (dictMem (strKey 1) (AccessManager.mk [1] [(strKey 42, mkPaidRecord 1 "alice" "t0")]).paid_users = false →
      (revoke_access (AccessManager.mk [1] [(strKey 42, mkPaidRecord 1 "alice" "t0")]) 1).1 = false)) :=
  ⟨by decide,
    c6_last_admin_preserved (AccessManager.mk [1] [(strKey 42, mkPaidRecord 1 "alice" "t0")])
      1 1 (by decide)⟩

/-- The JSON values `json.dump` / `json.load` exchange with the
`paid_users.json` file: strings, numbers and objects are the only shapes
the store writes. -/
inductive Json where
  | str (s : String)
  | num (n : Nat)
  | obj (fields : List (String × Json))

/-- JSON encoding of one `paid_users` record (the field layout written
by `grant_access_by_id`). -/
def encodeRecord (r : PaidRecord) : Json :=
  .obj [("granted_date", .str r.granted_date),
        ("granted_by", .num r.granted_by),
        ("username", .str r.username),
        ("access_type", .str r.access_type),
        ("payment_date", .str r.payment_date),
        ("price", .num r.price)]

def jsonStr : Json → Option String
  | .str s => some s
  | _ => none

def jsonNum : Json → Option Nat
  | .num n => some n
  | _ => none

/-- Decoding of one record from JSON. -/
def decodeRecord : Json → Option PaidRecord
  | .obj fields => do
      let gd ← (fields.lookup "granted_date").bind jsonStr
      let gb ← (fields.lookup "granted_by").bind jsonNum
      let un ← (fields.lookup "username").bind jsonStr
      let at_ ← (fields.lookup "access_type").bind jsonStr
      let pd ← (fields.lookup "payment_date").bind jsonStr
      let pr ← (fields.lookup "price").bind jsonNum
      pure ⟨gd, gb, un, at_, pd, pr⟩
  | _ => none

/-- Decoding of the whole `paid_users` object, field by field. -/
def decodeFields : List (String × Json) → Option (List (String × PaidRecord))
  | [] => some []
  | (k, j) :: rest => do
      let r ← decodeRecord j
      let rs ← decodeFields rest
      pure ((k, r) :: rs)

def decodeDict : Json → Option (List (String × PaidRecord))
  | .obj fields => decodeFields fields
  | _ => none

/-- Source method `AccessManager.save_data("paid_users", ...)`: the file contents after
a successful whole-file rewrite is the JSON object of the dict. -/
def save_data (m : AccessManager) : Json :=
  .obj (m.paid_users.map (fun kv => (kv.1, encodeRecord kv.2)))

/-- Source method `AccessManager.load_data("paid_users")`: a missing file or a read /
parse failure yields the empty dict (logged, not fatal). -/
def load_data (file : Option Json) : List (String × PaidRecord) :=
  match file with
  | none => []
  | some j => (decodeDict j).getD []

/-- Source constructor `AccessManager.__init__` of a fresh instance: `paid_users` is loaded
from the file, `admin_ids` is re-parsed from the unchanged `ADMIN_IDS`
environment variable. -/
def initManager (file : Option Json) (env_admin_ids : List Nat) : AccessManager :=
  { admin_ids := env_admin_ids, paid_users := load_data file }

theorem decodeRecord_encodeRecord (r : PaidRecord) :
    decodeRecord (encodeRecord r) = some r := rfl

theorem decodeFields_map_encode (l : List (String × PaidRecord)) :
    decodeFields (l.map (fun kv => (kv.1, encodeRecord kv.2))) = some l := by
  induction l with
  | nil => rfl
  | cons hd tl ih =>
    simp only [List.map_cons, decodeFields, decodeRecord_encodeRecord, ih]
    rfl

/-- C7: persistence round-trip — writing `paid_users` to the file and
constructing a fresh `AccessManager` from that file (with the unchanged
`ADMIN_IDS` environment) reproduces the very same store: identical
granted-user dict and identical admin set. -/
theorem c7_persistence_roundtrip (m : AccessManager) :
    initManager (some (save_data m)) m.admin_ids = m := by
  show AccessManager.mk m.admin_ids
      ((decodeFields (m.paid_users.map (fun kv => (kv.1, encodeRecord kv.2)))).getD [])
    = m
  rw [decodeFields_map_encode]
  rfl

/-- C9: admin access is irrevocable through the store's mutations — both
`grant_access_by_id` and `revoke_access` touch only the `paid_users`
dict, so after any sequence of them the admin set is unchanged and a
configured admin still gets `(True, "admin", None)` from `has_access`. -/
theorem c9_admin_irrevocable (m : AccessManager) (ops : List StoreOp) (a : Nat)
    (h : is_admin m a = true) :
    (applyOps m ops).admin_ids = m.admin_ids ∧
    has_access (applyOps m ops) a = ⟨true, "admin", none⟩ := by
  have hids := applyOps_admin_ids ops m
  refine ⟨hids, ?_⟩
  have hia : is_admin (applyOps m ops) a = true := by
    unfold is_admin at h ⊢
    rw [hids]
    exact h
  unfold has_access
  simp [hia]

/-- Witness for C9: admin 1 survives a grant of itself and two revokes. -/
theorem c9_admin_irrevocable_witness :
    is_admin (AccessManager.mk [1] []) 1 = true ∧
    ((applyOps (AccessManager.mk [1] [])
        [StoreOp.grantOp 1 1 "x" "t0", StoreOp.revokeOp 1, StoreOp.revokeOp 1]).admin_ids
      = (AccessManager.mk [1] []).admin_ids ∧
     has_access (applyOps (AccessManager.mk [1] [])
        [StoreOp.grantOp 1 1 "x" "t0", StoreOp.revokeOp 1, StoreOp.revokeOp 1]) 1
      = ⟨true, "admin", none⟩) :=
  ⟨by decide,
    c9_admin_irrevocable (AccessManager.mk [1] [])
      [StoreOp.grantOp 1 1 "x" "t0", StoreOp.revokeOp 1, StoreOp.revokeOp 1] 1 (by decide)⟩

/-! ## Course content and per-user progress -/

/-- Static module data (`MODULES`); the long display strings
(`content`, `task`, audio metadata) are presentation-only and elided —
only the fields the state machine reads are kept. -/
structure Module where
  id : Nat
  day : Nat
  title : String
  has_audio : Bool
deriving DecidableEq, Repr

/-- The fixed six-module course of `MODULES`. -/
def MODULES : List Module :=
  [⟨1, 1, "Основы мира тендеров", true⟩,
   ⟨2, 2, "44-ФЗ", true⟩,
   ⟨3, 3, "223-ФЗ", true⟩,
   ⟨4, 4, "Коммерческие тендеры", true⟩,
   ⟨5, 5, "Практический старт", true⟩,
   ⟨6, 6, "Итоги курса", true⟩]

/-- One question of `TEST_QUESTIONS` (`options` keeps the option letters,
the answer key of the scoring logic; option display text elided). -/
structure TestQuestion where
  id : Nat
  options : List String
  correct : String
  correct_text : String
deriving DecidableEq, Repr

/-- The fixed two-question final test of `TEST_QUESTIONS`. -/
def TEST_QUESTIONS : List TestQuestion :=
  [⟨1, ["а", "б", "в", "г"], "б", "б) 44-ФЗ"⟩,
   ⟨2, ["а", "б", "в", "г"], "а",
    "а) У каждого заказчика по 223-ФЗ есть собственное Положение о закупке"⟩]

/-- One per-question entry of the `results` list built in `finish_test`
(the truncated question display string is elided). -/
structure ResultEntry where
  question_id : Nat
  user_answer : Option String
  correct_answer : String
  correct_text : String
  is_correct : Bool
deriving DecidableEq, Repr

/-- One element of `user_progress[uid]["test_results"]`; `percentage`
(a Python float that is exact for these small divisions) is modelled as
a rational. -/
structure TestResult where
  date : String
  correct_answers : Nat
  total_questions : Nat
  percentage : ℚ
  grade : String
  results : List ResultEntry
deriving DecidableEq, Repr

/-- One `user_progress` record (the dict created in `cmd_start` /
`handle_complete_lesson` / `handle_mark_all_modules`). -/
structure UserProgress where
  start_date : String
  completed_modules : List Nat
  last_module : Nat
  name : String
  username : String
  audio_listened : List Nat
  test_results : List TestResult
deriving DecidableEq, Repr

/-- The fresh record the handlers create on first interaction. -/
def freshProgress (now name username : String) (last : Nat) : UserProgress :=
  ⟨now, [], last, name, username, [], []⟩

/-- Source note: `finish_test` creates `user_progress[user_id] = {}` when absent: a
bare dict whose missing fields read as these defaults through the
`.get(..., default)` accesses of the source. -/
def emptyProgress : UserProgress := ⟨"", [], 0, "", "", [], []⟩

/-- The module-level `user_progress` dict.  Its iteration order is never
observed by the embedded operations, so it is modelled as a map. -/
def Prog : Type := Nat → Option UserProgress

/-- Python `user_progress[uid] = p`. -/
def setProg (uid : Nat) (p : UserProgress) (prog : Prog) : Prog :=
  fun u => if u = uid then some p else prog u

/-- The completed-module list of a user (empty when no record exists). -/
def completedOf (prog : Prog) (uid : Nat) : List Nat :=
  match prog uid with
  | some p => p.completed_modules
  | none => []

/-- The audio-listened list of a user. -/
def audioOf (prog : Prog) (uid : Nat) : List Nat :=
  match prog uid with
  | some p => p.audio_listened
  | none => []

/-- The quiz-attempt history of a user. -/
def testResultsOf (prog : Prog) (uid : Nat) : List TestResult :=
  match prog uid with
  | some p => p.test_results
  | none => []

/-- Source function `show_module`: refuses without access; otherwise stores the viewed
index in the FSM data (`current_module`) and, when a progress record
exists, updates its `last_module`. -/
def show_module (m : AccessManager) (uid module_index : Nat)
    (cur : Option Nat) (prog : Prog) : Option Nat × Prog :=
  if (has_access m uid).ok then
    (some module_index,
      match prog uid with
      | some p => setProg uid { p with last_module := module_index } prog
      | none => prog)
  else (cur, prog)

/-- Source handler `handle_complete_lesson`: reads `current_module` from the FSM data
(default 0), lazily creates the progress record, then appends
`current_module + 1` to `completed_modules` unless already present;
the returned Bool is whether the module was newly completed. -/
def handle_complete_lesson (uid : Nat) (cur : Option Nat) (prog : Prog)
    (now name username : String) : Prog × Bool :=
  let current_module := cur.getD 0
  let p := (prog uid).getD (freshProgress now name username current_module)
  let module_num := current_module + 1
  if module_num ∈ p.completed_modules then
    (setProg uid p prog, false)
  else
    (setProg uid { p with completed_modules := p.completed_modules ++ [module_num] } prog,
     true)

/-- Replies of the lesson-navigation handlers. -/
inductive NavReply where
  | shown (idx : Nat)
  | firstLesson
  | lastLesson
deriving DecidableEq, Repr

/-- Source handler `handle_prev_lesson`: moves back one module via `show_module`, or
reports "this is the first lesson" leaving the index unchanged. -/
def handle_prev_lesson (m : AccessManager) (uid : Nat) (cur : Option Nat)
    (prog : Prog) : (Option Nat × Prog) × NavReply :=
  let current_module := cur.getD 0
  if 0 < current_module then
    (show_module m uid (current_module - 1) cur prog,
     NavReply.shown (current_module - 1))
  else ((cur, prog), NavReply.firstLesson)

/-- Source handler `handle_next_lesson`: moves forward one module via `show_module`, or
reports "this is the last lesson" leaving the index unchanged. -/
def handle_next_lesson (m : AccessManager) (uid : Nat) (cur : Option Nat)
    (prog : Prog) : (Option Nat × Prog) × NavReply :=
  let current_module := cur.getD 0
  if current_module < MODULES.length - 1 then
    (show_module m uid (current_module + 1) cur prog,
     NavReply.shown (current_module + 1))
  else ((cur, prog), NavReply.lastLesson)

/-- Iterated next-actions (state = FSM index plus progress dict). -/
def nextIter (m : AccessManager) (uid : Nat) :
    Nat → Option Nat × Prog → Option Nat × Prog
  | 0, s => s
  | k + 1, s => nextIter m uid k (handle_next_lesson m uid s.1 s.2).1

/-- The Python loop `for i in range(1, len+1): if i not in audio:
audio.append(i)` of `handle_mark_all_modules`. -/
def addMissing (audio : List Nat) (idxs : List Nat) : List Nat :=
  idxs.foldl (fun a i => if i ∈ a then a else a ++ [i]) audio

/-- Source handler `handle_mark_all_modules`: lazily creates the record, overwrites
`completed_modules` with `list(range(1, len(MODULES)+1))` and appends
every missing index to `audio_listened`. -/
def handle_mark_all_modules (uid : Nat) (prog : Prog)
    (now name username : String) : Prog :=
  let p := (prog uid).getD (freshProgress now name username 0)
  let p1 := { p with completed_modules := List.range' 1 MODULES.length }
  let p2 := { p1 with
    audio_listened := addMissing p1.audio_listened (List.range' 1 MODULES.length) }
  setProg uid p2 prog

/-- The start date of a user's record (empty string when absent). -/
def startDateOf (prog : Prog) (uid : Nat) : String :=
  match prog uid with
  | some p => p.start_date
  | none => ""

theorem setProg_self (uid : Nat) (p : UserProgress) (prog : Prog) :
    setProg uid p prog uid = some p := by
  simp [setProg]

theorem show_module_fst (m : AccessManager) (uid i : Nat) (cur : Option Nat)
    (prog : Prog) (hacc : (has_access m uid).ok = true) :
    (show_module m uid i cur prog).1 = some i := by
  unfold show_module
  simp [hacc]

theorem show_module_completedOf (m : AccessManager) (uid i : Nat) (cur : Option Nat)
    (prog : Prog) : completedOf (show_module m uid i cur prog).2 uid = completedOf prog uid := by
  unfold show_module
  by_cases hacc : (has_access m uid).ok
  · simp only [hacc, if_true]
    cases hp : prog uid with
    | none => simp [completedOf, hp]
    | some p => simp [completedOf, hp, setProg_self]
  · simp [hacc]

theorem complete_lesson_new (uid : Nat) (cur : Option Nat) (prog : Prog)
    (now name username : String)
    (h : (cur.getD 0 + 1) ∉ completedOf prog uid) :
    (handle_complete_lesson uid cur prog now name username).2 = true ∧
    completedOf (handle_complete_lesson uid cur prog now name username).1 uid
      = completedOf prog uid ++ [cur.getD 0 + 1] := by
  unfold handle_complete_lesson
  cases hp : prog uid with
  | none =>
    have hc : completedOf prog uid = [] := by simp [completedOf, hp]
    rw [hc] at h ⊢
    simp [hp, freshProgress, completedOf, setProg_self]
  | some p =>
    have hc : completedOf prog uid = p.completed_modules := by simp [completedOf, hp]
    rw [hc] at h ⊢
    simp [hp, h, completedOf, setProg_self]

theorem complete_lesson_old (uid : Nat) (cur : Option Nat) (prog : Prog)
    (now name username : String)
    (h : (cur.getD 0 + 1) ∈ completedOf prog uid) :
    (handle_complete_lesson uid cur prog now name username).2 = false ∧
    completedOf (handle_complete_lesson uid cur prog now name username).1 uid
      = completedOf prog uid := by
  unfold handle_complete_lesson
  cases hp : prog uid with
  | none =>
    rw [show completedOf prog uid = [] from by simp [completedOf, hp]] at h
    simp at h
  | some p =>
    have hc : completedOf prog uid = p.completed_modules := by simp [completedOf, hp]
    rw [hc] at h ⊢
    simp [hp, h, completedOf, setProg_self]

/-- C3: after viewing module `i`, the first "mark as completed" action
inserts `i + 1` into the user's completed set and reports newly
completed, and a second identical action reports not-newly-completed and
leaves the completed list (hence its size) unchanged. -/
theorem c3_complete_idempotent (m : AccessManager) (uid i : Nat) (cur : Option Nat)
    (prog : Prog) (now name username : String)
    (hacc : (has_access m uid).ok = true)
    (hi : i < MODULES.length)
    (hnew : (i + 1) ∉ completedOf prog uid) :
    (show_module m uid i cur prog).1 = some i ∧
    (handle_complete_lesson uid (show_module m uid i cur prog).1
      (show_module m uid i cur prog).2 now name username).2 = true ∧
    (i + 1) ∈ completedOf
      (handle_complete_lesson uid (show_module m uid i cur prog).1
        (show_module m uid i cur prog).2 now name username).1 uid ∧
    (handle_complete_lesson uid (show_module m uid i cur prog).1
      (handle_complete_lesson uid (show_module m uid i cur prog).1
        (show_module m uid i cur prog).2 now name username).1 now name username).2
      = false ∧
    completedOf
      (handle_complete_lesson uid (show_module m uid i cur prog).1
        (handle_complete_lesson uid (show_module m uid i cur prog).1
          (show_module m uid i cur prog).2 now name username).1 now name username).1 uid
      = completedOf
        (handle_complete_lesson uid (show_module m uid i cur prog).1
          (show_module m uid i cur prog).2 now name username).1 uid := by
  have hv1 : (show_module m uid i cur prog).1 = some i := show_module_fst m uid i cur prog hacc
  have hv2 : completedOf (show_module m uid i cur prog).2 uid = completedOf prog uid :=
    show_module_completedOf m uid i cur prog
  have hcur : ((show_module m uid i cur prog).1.getD 0) = i := by rw [hv1]; rfl
  have hnew1 : ((show_module m uid i cur prog).1.getD 0 + 1)
      ∉ completedOf (show_module m uid i cur prog).2 uid := by
    rw [hcur, hv2]; exact hnew
  obtain ⟨hfst, hcomp⟩ := complete_lesson_new uid (show_module m uid i cur prog).1
    (show_module m uid i cur prog).2 now name username hnew1
  rw [hcur, hv2] at hcomp
  have hmem : (i + 1) ∈ completedOf
      (handle_complete_lesson uid (show_module m uid i cur prog).1
        (show_module m uid i cur prog).2 now name username).1 uid := by
    rw [hcomp]
    exact List.mem_append_right _ (List.mem_singleton.mpr rfl)
  have hold : ((show_module m uid i cur prog).1.getD 0 + 1) ∈ completedOf
      (handle_complete_lesson uid (show_module m uid i cur prog).1
        (show_module m uid i cur prog).2 now name username).1 uid := by
    rw [hcur]; exact hmem
  obtain ⟨hsnd, hcomp2⟩ := complete_lesson_old uid (show_module m uid i cur prog).1
    (handle_complete_lesson uid (show_module m uid i cur prog).1
      (show_module m uid i cur prog).2 now name username).1 now name username hold
  exact ⟨hv1, hfst, hmem, hsnd, hcomp2⟩

/-- Witness for C3: fresh user 7 views module 0 under admin access. -/
theorem c3_complete_idempotent_witness :
    (has_access (AccessManager.mk [1] []) 1).ok = true ∧
    0 < MODULES.length ∧
    (0 + 1) ∉ completedOf (fun _ => none) 1 ∧
    ((show_module (AccessManager.mk [1] []) 1 0 none (fun _ => none)).1 = some 0 ∧
     (handle_complete_lesson 1 (show_module (AccessManager.mk [1] []) 1 0 none (fun _ => none)).1
       (show_module (AccessManager.mk [1] []) 1 0 none (fun _ => none)).2 "t" "n" "u").2 = true) := by
  refine ⟨by decide, by decide, by simp [completedOf], ?_⟩
  have h := c3_complete_idempotent (AccessManager.mk [1] []) 1 0 none (fun _ => none)
    "t" "n" "u" (by decide) (by decide) (by simp [completedOf])
  exact ⟨h.1, h.2.1⟩

theorem MODULES_length : MODULES.length = 6 := rfl

theorem nextIter_add (m : AccessManager) (uid : Nat) (a b : Nat) (s : Option Nat × Prog) :
    nextIter m uid (a + b) s = nextIter m uid b (nextIter m uid a s) := by
  induction a generalizing s with
  | zero =>
    rw [Nat.zero_add]
    rfl
  | succ a ih =>
    have h1 : a + 1 + b = (a + b) + 1 := by omega
    rw [h1]
    show nextIter m uid (a + b) ((handle_next_lesson m uid s.1 s.2).1) = _
    rw [ih]
    rfl

theorem handle_next_step (m : AccessManager) (uid c : Nat) (pr : Prog)
    (hacc : (has_access m uid).ok = true) (hc : c < MODULES.length - 1) :
    ((handle_next_lesson m uid (some c) pr).1).1 = some (c + 1) := by
  unfold handle_next_lesson
  simp only [Option.getD_some, hc, if_true]
  exact show_module_fst m uid (c + 1) (some c) pr hacc

theorem handle_next_last (m : AccessManager) (uid : Nat) (pr : Prog) :
    (handle_next_lesson m uid (some (MODULES.length - 1)) pr).1
      = (some (MODULES.length - 1), pr) ∧
    (handle_next_lesson m uid (some (MODULES.length - 1)) pr).2 = NavReply.lastLesson := by
  unfold handle_next_lesson
  simp

theorem nextIter_climb (m : AccessManager) (uid : Nat)
    (hacc : (has_access m uid).ok = true) :
    ∀ (k c : Nat) (s : Option Nat × Prog), s.1 = some c →
      c + k ≤ MODULES.length - 1 → (nextIter m uid k s).1 = some (c + k) := by
  intro k
  induction k with
  | zero => intro c s hs _; simpa using hs
  | succ k ih =>
    intro c s hs hle
    rw [ MODULES_length] at hle
    have hc : c < MODULES.length - 1 := by
      rw [ MODULES_length]
      omega
    show (nextIter m uid k (handle_next_lesson m uid s.1 s.2).1).1 = some (c + (k + 1))
    rw [hs]
    have hstep := handle_next_step m uid c s.2 hacc hc
    have hrest := ih (c + 1) (handle_next_lesson m uid (some c) s.2).1 hstep
      (by rw [ MODULES_length]; omega)
    rw [hrest]
    congr 1
    omega

theorem nextIter_saturate (m : AccessManager) (uid : Nat) :
    ∀ (k : Nat) (s : Option Nat × Prog), s.1 = some (MODULES.length - 1) →
      (nextIter m uid k s).1 = some (MODULES.length - 1) := by
  intro k
  induction k with
  | zero => intro s hs; simpa using hs
  | succ k ih =>
    intro s hs
    show (nextIter m uid k (handle_next_lesson m uid s.1 s.2).1).1 = _
    rw [hs]
    exact ih _ (by rw [(handle_next_last m uid s.2).1])

/-- C5: course navigation saturates at both boundaries — a next-action
at the last index keeps the index and answers "last lesson", a
previous-action at index 0 keeps the index and answers "first lesson",
and from index 0 six next-actions land on index 5 while a seventh stays
at index 5. -/
theorem c5_navigation_saturates (m : AccessManager) (uid : Nat) (prog : Prog)
    (hacc : (has_access m uid).ok = true) :
    (handle_next_lesson m uid (some (MODULES.length - 1)) prog).1.1
      = some (MODULES.length - 1) ∧
    (handle_next_lesson m uid (some (MODULES.length - 1)) prog).2
      = NavReply.lastLesson ∧
    (handle_prev_lesson m uid (some 0) prog).1.1 = some 0 ∧
    (handle_prev_lesson m uid (some 0) prog).2 = NavReply.firstLesson ∧
    (nextIter m uid 6 (some 0, prog)).1 = some 5 ∧
    (nextIter m uid 7 (some 0, prog)).1 = some 5 := by
  obtain ⟨hl1, hl2⟩ := handle_next_last m uid prog
  have h5 : (nextIter m uid 5 (some 0, prog)).1 = some 5 :=
    nextIter_climb m uid hacc 5 0 (some 0, prog) rfl (by rw [ MODULES_length])
  have hsat : (nextIter m uid 5 (some 0, prog)).1 = some (MODULES.length - 1) := by
    rw [h5, MODULES_length]
  have h6 : (nextIter m uid 6 (some 0, prog)).1 = some 5 := by
    have hadd := nextIter_add m uid 5 1 (some 0, prog)
    rw [show (6 : Nat) = 5 + 1 from rfl, hadd]
    rw [nextIter_saturate m uid 1 (nextIter m uid 5 (some 0, prog)) hsat]
    rw [ MODULES_length]
  have h7 : (nextIter m uid 7 (some 0, prog)).1 = some 5 := by
    have hadd := nextIter_add m uid 5 2 (some 0, prog)
    rw [show (7 : Nat) = 5 + 2 from rfl, hadd]
    rw [nextIter_saturate m uid 2 (nextIter m uid 5 (some 0, prog)) hsat]
    rw [ MODULES_length]
  refine ⟨by rw [hl1], hl2, ?_, ?_, h6, h7⟩
  · unfold handle_prev_lesson
    simp
  · unfold handle_prev_lesson
    simp

/-- Witness for C5: admin user 1 (who has access), empty progress. -/
theorem c5_navigation_saturates_witness :
    (has_access (AccessManager.mk [1] []) 1).ok = true ∧
    ((nextIter (AccessManager.mk [1] []) 1 6 (some 0, fun _ => none)).1 = some 5 ∧
     (nextIter (AccessManager.mk [1] []) 1 7 (some 0, fun _ => none)).1 = some 5) := by
  have h := c5_navigation_saturates (AccessManager.mk [1] []) 1 (fun _ => none) (by decide)
  exact ⟨by decide, h.2.2.2.2.1, h.2.2.2.2.2⟩

theorem mem_addMissing_left (idxs : List Nat) :
    ∀ (audio : List Nat) (x : Nat), x ∈ audio → x ∈ addMissing audio idxs := by
  induction idxs with
  | nil => intro audio x hx; simpa [addMissing] using hx
  | cons i tl ih =>
    intro audio x hx
    show x ∈ addMissing (if i ∈ audio then audio else audio ++ [i]) tl
    apply ih
    by_cases hi : i ∈ audio
    · simpa [hi] using hx
    · simp only [hi, if_false]
      exact List.mem_append_left _ hx

theorem mem_addMissing_of_mem (idxs : List Nat) :
    ∀ (audio : List Nat) (x : Nat), x ∈ idxs → x ∈ addMissing audio idxs := by
  induction idxs with
  | nil => intro audio x hx; simp at hx
  | cons i tl ih =>
    intro audio x hx
    show x ∈ addMissing (if i ∈ audio then audio else audio ++ [i]) tl
    rcases List.mem_cons.mp hx with he | ht
    · subst he
      apply mem_addMissing_left
      by_cases hi : x ∈ audio
      · simpa [hi]
      · simp only [hi, if_false]
        exact List.mem_append_right _ (List.mem_singleton.mpr rfl)
    · exact ih _ x ht

/-- C10: the "mark all modules" action overwrites the completed set with
exactly `range(1, module_count+1)`, additionally inserts every index of
that range into `audio_listened`, and leaves the quiz-attempt history
and the start date unchanged. -/
theorem c10_mark_all_modules (prog : Prog) (uid : Nat) (now name username : String) :
    completedOf (handle_mark_all_modules uid prog now name username) uid
      = List.range' 1 MODULES.length ∧
    (∀ j, j ∈ completedOf (handle_mark_all_modules uid prog now name username) uid ↔
      (1 ≤ j ∧ j ≤ MODULES.length)) ∧
    (∀ j, j ∈ List.range' 1 MODULES.length →
      j ∈ audioOf (handle_mark_all_modules uid prog now name username) uid) ∧
    testResultsOf (handle_mark_all_modules uid prog now name username) uid
      = ((prog uid).getD (freshProgress now name username 0)).test_results ∧
    startDateOf (handle_mark_all_modules uid prog now name username) uid
      = ((prog uid).getD (freshProgress now name username 0)).start_date := by
  have hrec : (handle_mark_all_modules uid prog now name username) uid =
      some { ((prog uid).getD (freshProgress now name username 0)) with
        completed_modules := List.range' 1 MODULES.length
        audio_listened := addMissing
          ((prog uid).getD (freshProgress now name username 0)).audio_listened
          (List.range' 1 MODULES.length) } := by
    unfold handle_mark_all_modules
    exact setProg_self _ _ _
  refine ⟨?_, ?_, ?_, ?_, ?_⟩
  · simp [completedOf, hrec]
  · intro j
    simp only [completedOf, hrec]
    rw [List.mem_range']
    rw [ MODULES_length]
    constructor
    · rintro ⟨i, hlt, rfl⟩
      omega
    · rintro ⟨h1, h2⟩
      exact ⟨j - 1, by omega, by omega⟩
  · intro j hj
    simp only [audioOf, hrec]
    exact mem_addMissing_of_mem _ _ j hj
  · simp [testResultsOf, hrec]
  · simp [startDateOf, hrec]

/-- Witness for C10: fresh user 7. -/
theorem c10_mark_all_modules_witness :
    completedOf (handle_mark_all_modules 7 (fun _ => none) "t" "n" "u") 7
      = List.range' 1 MODULES.length ∧
    (∀ j, j ∈ List.range' 1 MODULES.length →
      j ∈ audioOf (handle_mark_all_modules 7 (fun _ => none) "t" "n" "u") 7) ∧
    testResultsOf (handle_mark_all_modules 7 (fun _ => none) "t" "n" "u") 7
      = (((fun _ => none : Prog) 7).getD (freshProgress "t" "n" "u" 0)).test_results := by
  have h := c10_mark_all_modules (fun _ => none) 7 "t" "n" "u"
  exact ⟨h.1, h.2.2.1, h.2.2.2.1⟩

/-! ## Quiz sub-state-machine -/

/-- State of one quiz run (the `test_data` dict held in the aiogram FSM;
`answers` maps question id to the chosen option letter). -/
structure TestData where
  current_question : Nat
  answers : List (Nat × String)
  start_time : String
  completed : Bool
  skipped : List Nat
deriving DecidableEq, Repr

/-- Fresh `test_data` built by `start_test_internal`. -/
def initTestData (now : String) : TestData :=
  ⟨0, [], now, false, []⟩

/-- Source function `start_test_internal`: refuses without access
(leaving any in-flight quiz state alone), otherwise starts a fresh run
at question 0 discarding previous answers. -/
def start_test_internal (m : AccessManager) (uid : Nat) (quiz : Option TestData)
    (now : String) : Option TestData :=
  if (has_access m uid).ok then some (initTestData now) else quiz

/-- Python `answers[qid] = letter` (dict assignment: overwrite in place
or append). -/
def dictSetNat (k : Nat) (v : String) (l : List (Nat × String)) : List (Nat × String) :=
  if (l.lookup k).isSome then l.map (fun kv => if kv.1 = k then (k, v) else kv)
  else l ++ [(k, v)]

/-- Grade line for at least one correct answer. -/
def GRADE_GOOD : String :=
  "Отлично! Вы прекрасно усвоили материал курса и готовы к первым шагам в мире тендеров."

/-- Grade line for zero correct answers. -/
def GRADE_BAD : String :=
  "Не переживайте! Вернитесь к материалам экспресс-курса и уделите внимание основам."

/-- The scoring loop of `finish_test`: walks `TEST_QUESTIONS` once,
counting correct answers (a missing answer compares unequal to the
correct letter, hence scores as incorrect) and accumulating the
per-question `results` entries in order. -/
def finishScore (answers : List (Nat × String)) (qs : List TestQuestion) :
    Nat × List ResultEntry :=
  qs.foldl
    (fun acc q =>
      let user_answer := answers.lookup q.id
      let is_correct := user_answer == some q.correct
      (acc.1 + (if is_correct then 1 else 0),
       acc.2 ++ [⟨q.id, user_answer, q.correct, q.correct_text, is_correct⟩]))
    (0, [])

/-- Specification-side view of one `results` entry. -/
def mkEntry (answers : List (Nat × String)) (q : TestQuestion) : ResultEntry :=
  ⟨q.id, answers.lookup q.id, q.correct, q.correct_text,
   answers.lookup q.id == some q.correct⟩

/-- The `test_result` record `finish_test` appends: correct count and
results from the scoring loop, constant `total_questions`, percentage
`(correct / total) * 100` (0 when there are no questions), and the
two-way grade. -/
def mkTestResult (td : TestData) (now : String) : TestResult :=
  let total_questions := TEST_QUESTIONS.length
  let score := finishScore td.answers TEST_QUESTIONS
  let percentage : ℚ :=
    if 0 < total_questions then (score.1 : ℚ) / (total_questions : ℚ) * 100 else 0
  let grade := if 1 ≤ score.1 then GRADE_GOOD else GRADE_BAD
  ⟨now, score.1, total_questions, percentage, grade, score.2⟩

/-- Source function `finish_test`: lazily creates the (bare) progress
record, appends the scored result to `test_results`, and clears the FSM
state — the quiz returns to Idle (`none`). -/
def finish_test (uid : Nat) (td : TestData) (prog : Prog) (now : String) :
    Option TestData × Prog :=
  let p := (prog uid).getD emptyProgress
  (none,
   setProg uid { p with test_results := p.test_results ++ [mkTestResult td now] } prog)

/-- Placeholder question for the (guarded) list indexing. -/
def defaultQuestion : TestQuestion := ⟨0, [], "", ""⟩

/-- Source function `process_test_answer`: records the answer under the
current question's id and advances; past the last question it finishes
the test; with an out-of-range index it returns leaving state alone. -/
def process_test_answer (uid : Nat) (td : TestData) (prog : Prog)
    (answer now : String) : Option TestData × Prog :=
  if td.current_question < TEST_QUESTIONS.length then
    let q := TEST_QUESTIONS.getD td.current_question defaultQuestion
    let td1 := { td with answers := dictSetNat q.id answer td.answers }
    let next := td.current_question + 1
    if next < TEST_QUESTIONS.length then
      (some { td1 with current_question := next }, prog)
    else finish_test uid td1 prog now
  else (some td, prog)

/-- Source handler `handle_skip_question`: records nothing and advances;
skipping the last question finishes the test. -/
def handle_skip_question (uid : Nat) (td : TestData) (prog : Prog)
    (now : String) : Option TestData × Prog :=
  let next := td.current_question + 1
  if next < TEST_QUESTIONS.length then
    (some { td with current_question := next }, prog)
  else finish_test uid td prog now

theorem finishScore_foldl (answers : List (Nat × String)) :
    ∀ (qs : List TestQuestion) (c : Nat) (r : List ResultEntry),
      qs.foldl
        (fun acc q =>
          let user_answer := answers.lookup q.id
          let is_correct := user_answer == some q.correct
          (acc.1 + (if is_correct then 1 else 0),
           acc.2 ++ [⟨q.id, user_answer, q.correct, q.correct_text, is_correct⟩]))
        (c, r)
      = (c + qs.countP (fun q => answers.lookup q.id == some q.correct),
         r ++ qs.map (mkEntry answers)) := by
  intro qs
  induction qs with
  | nil => intro c r; simp
  | cons q tl ih =>
    intro c r
    simp only [List.foldl_cons]
    rw [ih]
    rw [List.countP_cons, List.map_cons]
    rw [Prod.mk.injEq]
    constructor
    · by_cases h : (answers.lookup q.id == some q.correct) = true <;>
        simp [h] <;> omega
    · simp [mkEntry]

theorem finishScore_eq (answers : List (Nat × String)) (qs : List TestQuestion) :
    finishScore answers qs
      = (qs.countP (fun q => answers.lookup q.id == some q.correct),
         qs.map (mkEntry answers)) := by
  unfold finishScore
  rw [finishScore_foldl]
  simp

/-- C4: on finishing a quiz, the recorded `correct_answers` equals the
number of questions whose recorded answer is the correct letter (an
unanswered question compares unequal, hence counts as incorrect),
`total_questions` is the full question-list length regardless of skips,
`percentage` is exactly `correct / total * 100`, the result is appended
to the user's quiz-attempt history and the quiz state resets to Idle;
and concretely, skipping both questions of a fresh run finishes with
zero correct answers and every question recorded as unanswered. -/
theorem c4_quiz_scoring (uid : Nat) (td : TestData) (prog : Prog) (now : String) :
    (mkTestResult td now).correct_answers
      = TEST_QUESTIONS.countP (fun q => td.answers.lookup q.id == some q.correct) ∧
    (mkTestResult td now).total_questions = TEST_QUESTIONS.length ∧
    (mkTestResult td now).percentage
      = ((mkTestResult td now).correct_answers : ℚ) / (TEST_QUESTIONS.length : ℚ) * 100 ∧
    (∀ e ∈ (mkTestResult td now).results,
      e.user_answer = td.answers.lookup e.question_id ∧
      (e.is_correct = true ↔ e.user_answer = some e.correct_answer) ∧
      (e.user_answer = none → e.is_correct = false)) ∧
    (finish_test uid td prog now).1 = none ∧
    testResultsOf (finish_test uid td prog now).2 uid
      = testResultsOf prog uid ++ [mkTestResult td now] ∧
    handle_skip_question 7 (initTestData "t0") (fun _ => none) "t0"
      = (some { initTestData "t0" with current_question := 1 }, (fun _ => none : Prog)) ∧
    (handle_skip_question 7 { initTestData "t0" with current_question := 1 }
        (fun _ => none) "t0").1 = none ∧
    (mkTestResult { initTestData "t0" with current_question := 1 } "t0").correct_answers
      = 0 ∧
    testResultsOf (handle_skip_question 7
        { initTestData "t0" with current_question := 1 } (fun _ => none) "t0").2 7
      = [mkTestResult { initTestData "t0" with current_question := 1 } "t0"] ∧
    (∀ e ∈ (mkTestResult { initTestData "t0" with current_question := 1 } "t0").results,
      e.user_answer = none) := by
  have hscore := finishScore_eq td.answers TEST_QUESTIONS
  refine ⟨?_, rfl, ?_, ?_, rfl, ?_, rfl, rfl, rfl, ?_, ?_⟩
  · show (finishScore td.answers TEST_QUESTIONS).1 = _
    rw [hscore]
  · show (if 0 < TEST_QUESTIONS.length
        then ((finishScore td.answers TEST_QUESTIONS).1 : ℚ)
          / (TEST_QUESTIONS.length : ℚ) * 100
        else 0)
      = ((finishScore td.answers TEST_QUESTIONS).1 : ℚ)
          / (TEST_QUESTIONS.length : ℚ) * 100
    rw [if_pos (by decide)]
  · intro e he
    have hres : (mkTestResult td now).results
        = TEST_QUESTIONS.map (mkEntry td.answers) := by
      show (finishScore td.answers TEST_QUESTIONS).2 = _
      rw [hscore]
    rw [hres] at he
    obtain ⟨q, hq, rfl⟩ := List.mem_map.mp he
    refine ⟨rfl, ?_, ?_⟩
    · show (td.answers.lookup q.id == some q.correct) = true ↔ _
      rw [beq_iff_eq]
      exact Iff.rfl
    · intro hnone
      show (td.answers.lookup q.id == some q.correct) = false
      have : td.answers.lookup q.id = none := hnone
      rw [this]
      rfl
  · unfold finish_test
    cases hp : prog uid with
    | none => simp [testResultsOf, setProg_self, hp, emptyProgress]
    | some p => simp [testResultsOf, setProg_self, hp]
  · show testResultsOf (finish_test 7
        { initTestData "t0" with current_question := 1 } (fun _ => none) "t0").2 7 = _
    unfold finish_test
    simp [testResultsOf, setProg_self, emptyProgress]
  · decide

/-! ## Inbound action classification and the catch-all handler -/

/-- Reply classification of the modelled message handlers (`silent` is
a handler that returns without answering, as the admin input handlers
do for non-admin senders). -/
inductive Reply where
  | helpFallback
  | accessDenied
  | supportInfo
  | myIdInfo
  | priceInfo
  | markedAll
  | testStarted
  | courseMenu
  | silent
  | grantCancelled
  | grantAlready
  | grantOk
  | grantFailed
  | grantBadId
  | grantBadUsername
  | grantUsernameHelp
  | revokeCancelled
  | revokeNotFound
  | revokeOk
  | revokeFailed
  | revokeBadId
  | revokeBadUsername
deriving DecidableEq, Repr

/-- The aiogram FSM dialogue states of the source's `UserState` states
group, with `noState` for a cleared or never-set state. -/
inductive UserState where
  | noState
  | viewing_module
  | waiting_feedback
  | taking_test
  | test_question
  | admin_menu
  | admin_grant_access
  | admin_revoke_access
deriving DecidableEq, Repr

/-- Whitespace-trim on the character list (Python `str.strip()`; the
tokens these handlers compare only ever carry plain spaces). -/
def trimChars (cs : List Char) : List Char :=
  ((cs.dropWhile (fun c => c = ' ')).reverse.dropWhile (fun c => c = ' ')).reverse

/-- Python `int(s)` on the (trimmed) decimal id strings the admin
handlers receive; a non-digit string raises ValueError, modelled as
`none`. -/
def parseNatChars (cs : List Char) : Option Nat :=
  if cs ≠ [] ∧ cs.all (fun c => c.isDigit) then
    some (cs.foldl (fun n c => n * 10 + (c.toNat - 48)) 0)
  else none

/-- Python `str.lower()` on the character list. -/
def lowerChars (cs : List Char) : List Char := cs.map Char.toLower

/-- Slash commands with registered handlers. -/
def COMMANDS : List String :=
  ["start", "myid", "support", "admin", "grant", "grant_id", "revoke",
   "userinfo", "broadcast", "help", "contacts"]

/-- Exact-match button texts of the registered handlers. -/
def BUTTON_TRIGGERS : List String :=
  ["👑 Админ панель", "👥 Список пользователей", "➕ Выдать доступ",
   "➖ Забрать доступ", "📊 Статистика", "📥 Скачать чек-лист",
   "📚 Меню курса", "🎧 Аудио уроки", "📊 Мой прогресс",
   "⬅️ Предыдущий урок", "Следующий урок ➡️", "🎧 Прослушать аудио",
   "✅ Отметить пройденным", "📝 Пройти тест", "а", "б", "в", "г",
   "⏭ Пропустить", "🏁 Завершить тест", "✅ Отметить все модули",
   "🏆 Результаты теста", "🔙 Назад в главное меню", "🔙 Главное меню",
   "🔙 Назад"]

/-- Prefixes of the lesson-selector handler (a `startswith` filter). -/
def MODULE_PREFIXES : List String := ["📚", "🏛️", "🏢", "💼", "🚀", "🏆"]

/-- Tokens special-cased inside `handle_other_messages` itself. -/
def INNER_TOKENS : List String :=
  ["👨‍💼 Связаться с администратором", "ℹ️ Узнать мой ID", "💰 Стоимость курса",
   "✅ Отметить все модули как пройденные", "📝 Пройти тест все равно",
   "📚 Вернуться к обучению"]

/-- Python `text.startswith(pre)` (spelled out on the character lists so
that it evaluates inside the kernel). -/
def startsWithStr (text pre : String) : Bool :=
  pre.data.isPrefixOf text.data

/-- Command extraction of the access middleware:
`text.split(' ')[0][1:].split('@')[0]` on slash-initial text. -/
def commandOf (text : String) : Option String :=
  if startsWithStr text "/" then
    some (((text.drop 1).takeWhile (fun c => c ≠ ' ')).takeWhile (fun c => c ≠ '@'))
  else none

/-- Whether a token belongs to the fixed command/button vocabulary: it
would be matched by some handler registered before the catch-all, or by
one of the catch-all's own special cases. -/
def recognizedToken (text : String) : Bool :=
  (match commandOf text with
   | some c => decide (c ∈ COMMANDS)
   | none => false) ||
  decide (text ∈ BUTTON_TRIGGERS) ||
  MODULE_PREFIXES.any (fun p => startsWithStr text p) ||
  decide (text ∈ INNER_TOKENS)

/-- Commands the middleware allows without an access check. -/
def ALLOWED_COMMANDS : List String := ["start", "help", "support", "contacts", "myid"]

/-- Source function `check_access_middleware`, as the predicate "the
update reaches its handler" (otherwise the access-denied reply is sent
and processing stops). -/
def check_access_middleware (m : AccessManager) (uid : Nat) (text : String) : Bool :=
  match commandOf text with
  | some c =>
      if ALLOWED_COMMANDS.contains c then true
      else is_admin m uid || (has_access m uid).ok
  | none => is_admin m uid || (has_access m uid).ok

/-- Source method `AccessManager.get_user_by_username`: strips `@`,
trims and lowercases the query, then returns the first `paid_users`
entry whose stored username lowercases to it. -/
def get_user_by_username (m : AccessManager) (username : List Char) :
    Option (String × PaidRecord) :=
  let uname := lowerChars (trimChars (username.filter (fun c => c ≠ '@')))
  m.paid_users.find? (fun kv => lowerChars kv.2.username.data == uname)

/-- Source handler `process_grant_access` (line 1462, registered on the
`admin_grant_access` dialogue state and matching ANY text): silently
ignores non-admins; `/cancel` clears the state; an `id:N` token grants
access to `N` — mutating and persisting the store — unless `N` is
already granted; a username-shaped token gets the lookup-help reply.
The empty username keeps the state, every other path clears it.  The
granted record's username comes from a `bot.get_chat` call, modelled as
its failure fallback `""`. -/
def process_grant_access (m : AccessManager) (uid : Nat) (text now : String) :
    AccessManager × UserState × Reply :=
  if is_admin m uid = false then (m, UserState.admin_grant_access, Reply.silent)
  else if lowerChars text.data = "/cancel".data then
    (m, UserState.noState, Reply.grantCancelled)
  else
    let input_text := trimChars text.data
    if "id:".data.isPrefixOf input_text then
      match parseNatChars (trimChars (input_text.drop 3)) with
      | some target =>
          if dictMem (strKey target) m.paid_users then
            (m, UserState.noState, Reply.grantAlready)
          else
            let r := grant_access_by_id m target uid "" now
            (r.2, UserState.noState, if r.1 then Reply.grantOk else Reply.grantFailed)
      | none => (m, UserState.noState, Reply.grantBadId)
    else
      let username := trimChars (input_text.filter (fun c => c ≠ '@'))
      if username = [] then (m, UserState.admin_grant_access, Reply.grantBadUsername)
      else (m, UserState.noState, Reply.grantUsernameHelp)

/-- Source handler `process_revoke_access` (line 1609, registered on the
`admin_revoke_access` dialogue state and matching ANY text): silently
ignores non-admins; `/cancel` clears; an `id:N` token revokes `N` when
granted — mutating and persisting the store — and reports not-found
otherwise; a username token revokes the entry `get_user_by_username`
finds (`int(key)` on a stored key always succeeds, hence the default).
The empty username keeps the state, every other path clears it. -/
def process_revoke_access (m : AccessManager) (uid : Nat) (text : String) :
    AccessManager × UserState × Reply :=
  if is_admin m uid = false then (m, UserState.admin_revoke_access, Reply.silent)
  else if lowerChars text.data = "/cancel".data then
    (m, UserState.noState, Reply.revokeCancelled)
  else
    let input_text := trimChars text.data
    if "id:".data.isPrefixOf input_text then
      match parseNatChars (trimChars (input_text.drop 3)) with
      | some target =>
          if dictMem (strKey target) m.paid_users = false then
            (m, UserState.noState, Reply.revokeNotFound)
          else
            let r := revoke_access m target
            (r.2, UserState.noState, if r.1 then Reply.revokeOk else Reply.revokeFailed)
      | none => (m, UserState.noState, Reply.revokeBadId)
    else
      let username := trimChars (input_text.filter (fun c => c ≠ '@'))
      if username = [] then (m, UserState.admin_revoke_access, Reply.revokeBadUsername)
      else
        match get_user_by_username m username with
        | none => (m, UserState.noState, Reply.revokeNotFound)
        | some kv =>
            let r := revoke_access m ((parseNatChars kv.1.data).getD 0)
            (r.2, UserState.noState, if r.1 then Reply.revokeOk else Reply.revokeFailed)

/-- Source handler `handle_other_messages` (the `@dp.message()`
catch-all) on a text message: six special-cased tokens, then the help
fallback, which mutates nothing and leaves the dialogue state alone
("start the test anyway" enters the quiz state when access allows,
matching `start_test_internal`). -/
def handle_other_messages (m : AccessManager) (uid : Nat) (st : UserState)
    (prog : Prog) (quiz : Option TestData) (text now name username : String) :
    (AccessManager × Prog × Option TestData) × UserState × Reply :=
  if text = "👨‍💼 Связаться с администратором" then ((m, prog, quiz), st, Reply.supportInfo)
  else if text = "ℹ️ Узнать мой ID" then ((m, prog, quiz), st, Reply.myIdInfo)
  else if text = "💰 Стоимость курса" then ((m, prog, quiz), st, Reply.priceInfo)
  else if text = "✅ Отметить все модули как пройденные" then
    ((m, handle_mark_all_modules uid prog now name username, quiz), st, Reply.markedAll)
  else if text = "📝 Пройти тест все равно" then
    ((m, prog, start_test_internal m uid quiz now),
     (if (has_access m uid).ok then UserState.taking_test else st), Reply.testStarted)
  else if text = "📚 Вернуться к обучению" then ((m, prog, quiz), st, Reply.courseMenu)
  else ((m, prog, quiz), st, Reply.helpFallback)

/-- Dispatch of one inbound text token that no text-filtered handler
matches (`recognizedToken text = false`): the access middleware, then
the two any-text handlers registered on the admin input dialogue states
before the catch-all, then the catch-all itself.  Every other dialogue
state gates only fixed-vocabulary tokens, so such a token falls through
to the catch-all there. -/
def receive_text (m : AccessManager) (uid : Nat) (st : UserState) (prog : Prog)
    (quiz : Option TestData) (text now name username : String) :
    (AccessManager × Prog × Option TestData) × UserState × Reply :=
  if check_access_middleware m uid text then
    match st with
    | UserState.admin_grant_access =>
        let r := process_grant_access m uid text now
        ((r.1, prog, quiz), r.2.1, r.2.2)
    | UserState.admin_revoke_access =>
        let r := process_revoke_access m uid text
        ((r.1, prog, quiz), r.2.1, r.2.2)
    | _ => handle_other_messages m uid st prog quiz text now name username
  else ((m, prog, quiz), st, Reply.accessDenied)

/-- C8 counterexample: the claim fails on the admin input dialogue
states.  Admin 1 — a user with access — in the `admin_grant_access`
state (reached through the admin panel's grant button) sends `id:555`,
a token outside the fixed command/button vocabulary: the interaction
GRANTS user 555 access — the persisted access store is mutated — and
replies with the grant confirmation, not the help fallback. -/
theorem c8_counterexample :
    (has_access (AccessManager.mk [1] []) 1).ok = true ∧
    recognizedToken "id:555" = false ∧
    (receive_text (AccessManager.mk [1] []) 1 UserState.admin_grant_access
        (fun _ => none) none "id:555" "t" "n" "u").2.2 ≠ Reply.helpFallback ∧
    (receive_text (AccessManager.mk [1] []) 1 UserState.admin_grant_access
        (fun _ => none) none "id:555" "t" "n" "u").1.1 ≠ AccessManager.mk [1] [] ∧
    (has_access (receive_text (AccessManager.mk [1] []) 1 UserState.admin_grant_access
        (fun _ => none) none "id:555" "t" "n" "u").1.1 555).ok = true := by
  decide

/-- C8 (amended to exclude the admin input dialogue states): a user
with access whose dialogue state is neither `admin_grant_access` nor
`admin_revoke_access` — the two states whose any-text admin handlers
run before the catch-all — and who sends a token outside the fixed
command/button vocabulary gets exactly the "show help" fallback reply,
never an error, and the interaction leaves the access store, the
progress dict, the quiz state and the dialogue state unchanged. -/
theorem c8_unrecognized_fallback (m : AccessManager) (uid : Nat) (st : UserState)
    (prog : Prog) (quiz : Option TestData) (text now name username : String)
    (hacc : (has_access m uid).ok = true)
    (hun : recognizedToken text = false)
    (hg : st ≠ UserState.admin_grant_access)
    (hr : st ≠ UserState.admin_revoke_access) :
    receive_text m uid st prog quiz text now name username
      = ((m, prog, quiz), st, Reply.helpFallback) := by
  have hmw : check_access_middleware m uid text = true := by
    unfold check_access_middleware
    cases commandOf text with
    | none => simp [hacc]
    | some c => simp [hacc]
  unfold recognizedToken at hun
  simp only [Bool.or_eq_false_iff] at hun
  have h4 : decide (text ∈ INNER_TOKENS) = false := hun.2
  have hmem : text ∉ INNER_TOKENS := of_decide_eq_false h4
  have hne : ∀ s, s ∈ INNER_TOKENS → ¬ (text = s) := fun s hs he => hmem (he ▸ hs)
  have hcatch : ∀ st2 : UserState,
      handle_other_messages m uid st2 prog quiz text now name username
        = ((m, prog, quiz), st2, Reply.helpFallback) := by
    intro st2
    unfold handle_other_messages
    rw [if_neg (hne _ (by decide)), if_neg (hne _ (by decide)),
      if_neg (hne _ (by decide)), if_neg (hne _ (by decide)),
      if_neg (hne _ (by decide)), if_neg (hne _ (by decide))]
  unfold receive_text
  rw [if_pos hmw]
  cases st with
  | admin_grant_access => exact absurd rfl hg
  | admin_revoke_access => exact absurd rfl hr
  | noState => exact hcatch _
  | viewing_module => exact hcatch _
  | waiting_feedback => exact hcatch _
  | taking_test => exact hcatch _
  | test_question => exact hcatch _
  | admin_menu => exact hcatch _

/-- Witness for C8 (amended): admin 1, in no dialogue state, sends the
out-of-vocabulary token "abc". -/
theorem c8_unrecognized_fallback_witness :
    (has_access (AccessManager.mk [1] []) 1).ok = true ∧
    recognizedToken "abc" = false ∧
    UserState.noState ≠ UserState.admin_grant_access ∧
    UserState.noState ≠ UserState.admin_revoke_access ∧
    receive_text (AccessManager.mk [1] []) 1 UserState.noState (fun _ => none) none
        "abc" "t" "n" "u"
      = (((AccessManager.mk [1] []), (fun _ => none : Prog), (none : Option TestData)),
         UserState.noState, Reply.helpFallback) :=
  ⟨by decide, by decide, by decide, by decide,
    c8_unrecognized_fallback (AccessManager.mk [1] []) 1 UserState.noState (fun _ => none)
      none "abc" "t" "n" "u" (by decide) (by decide) (by decide) (by decide)⟩

end TritikaBot
